import Mathlib

/-!
Verification development for the orchestration core of the `atulya-ai`
repository (`src/Core/agent.py` and `src/Core/model_loader.py`).

The Python dictionaries that flow through the planner and executor are
modelled by a `Json` value type.  JSON numbers are represented in decimal
form as a mantissa/scale pair `num m e` denoting `m / 10^e`, kept canonical
(no trailing decimal zeros), which matches Python's numeric equality on the
decimal-exact values appearing in this code base.
-/

namespace Atulya

inductive Json where
  | null
  | bool (b : Bool)
  | num (m : Int) (e : Nat)
  | str (s : String)
  | arr (items : List Json)
  | obj (fields : List (String × Json))

mutual

def Json.decEq : (a b : Json) → Decidable (a = b)
  | .null, .null => isTrue rfl
  | .bool a, .bool b =>
    match decEq a b with
    | isTrue h => isTrue (by rw [h])
    | isFalse h => isFalse (by intro hh; injection hh; contradiction)
  | .num a e1, .num b e2 =>
    match decEq a b, decEq e1 e2 with
    | isTrue h1, isTrue h2 => isTrue (by rw [h1, h2])
    | isFalse h1, _ => isFalse (by intro hh; injection hh; contradiction)
    | _, isFalse h2 => isFalse (by intro hh; injection hh; contradiction)
  | .str a, .str b =>
    match decEq a b with
    | isTrue h => isTrue (by rw [h])
    | isFalse h => isFalse (by intro hh; injection hh; contradiction)
  | .arr a, .arr b =>
    match decEqJsonList a b with
    | isTrue h => isTrue (by rw [h])
    | isFalse h => isFalse (by intro hh; injection hh; contradiction)
  | .obj a, .obj b =>
    match decEqJsonFields a b with
    | isTrue h => isTrue (by rw [h])
    | isFalse h => isFalse (by intro hh; injection hh; contradiction)
  | .null, .bool _ => isFalse (fun h => Json.noConfusion h)
  | .null, .num _ _ => isFalse (fun h => Json.noConfusion h)
  | .null, .str _ => isFalse (fun h => Json.noConfusion h)
  | .null, .arr _ => isFalse (fun h => Json.noConfusion h)
  | .null, .obj _ => isFalse (fun h => Json.noConfusion h)
  | .bool _, .null => isFalse (fun h => Json.noConfusion h)
  | .bool _, .num _ _ => isFalse (fun h => Json.noConfusion h)
  | .bool _, .str _ => isFalse (fun h => Json.noConfusion h)
  | .bool _, .arr _ => isFalse (fun h => Json.noConfusion h)
  | .bool _, .obj _ => isFalse (fun h => Json.noConfusion h)
  | .num _ _, .null => isFalse (fun h => Json.noConfusion h)
  | .num _ _, .bool _ => isFalse (fun h => Json.noConfusion h)
  | .num _ _, .str _ => isFalse (fun h => Json.noConfusion h)
  | .num _ _, .arr _ => isFalse (fun h => Json.noConfusion h)
  | .num _ _, .obj _ => isFalse (fun h => Json.noConfusion h)
  | .str _, .null => isFalse (fun h => Json.noConfusion h)
  | .str _, .bool _ => isFalse (fun h => Json.noConfusion h)
  | .str _, .num _ _ => isFalse (fun h => Json.noConfusion h)
  | .str _, .arr _ => isFalse (fun h => Json.noConfusion h)
  | .str _, .obj _ => isFalse (fun h => Json.noConfusion h)
  | .arr _, .null => isFalse (fun h => Json.noConfusion h)
  | .arr _, .bool _ => isFalse (fun h => Json.noConfusion h)
  | .arr _, .num _ _ => isFalse (fun h => Json.noConfusion h)
  | .arr _, .str _ => isFalse (fun h => Json.noConfusion h)
  | .arr _, .obj _ => isFalse (fun h => Json.noConfusion h)
  | .obj _, .null => isFalse (fun h => Json.noConfusion h)
  | .obj _, .bool _ => isFalse (fun h => Json.noConfusion h)
  | .obj _, .num _ _ => isFalse (fun h => Json.noConfusion h)
  | .obj _, .str _ => isFalse (fun h => Json.noConfusion h)
  | .obj _, .arr _ => isFalse (fun h => Json.noConfusion h)

def decEqJsonList : (a b : List Json) → Decidable (a = b)
  | [], [] => isTrue rfl
  | [], _ :: _ => isFalse (fun h => List.noConfusion h)
  | _ :: _, [] => isFalse (fun h => List.noConfusion h)
  | x :: xs, y :: ys =>
    match Json.decEq x y, decEqJsonList xs ys with
    | isTrue h1, isTrue h2 => isTrue (by rw [h1, h2])
    | isFalse h1, _ => isFalse (by intro hh; injection hh; contradiction)
    | _, isFalse h2 => isFalse (by intro hh; injection hh; contradiction)

def decEqJsonFields : (a b : List (String × Json)) → Decidable (a = b)
  | [], [] => isTrue rfl
  | [], _ :: _ => isFalse (fun h => List.noConfusion h)
  | _ :: _, [] => isFalse (fun h => List.noConfusion h)
  | (k1, v1) :: xs, (k2, v2) :: ys =>
    match decEq k1 k2, Json.decEq v1 v2, decEqJsonFields xs ys with
    | isTrue h1, isTrue h2, isTrue h3 => isTrue (by rw [h1, h2, h3])
    | isFalse h1, _, _ =>
      isFalse (by intro hh; injection hh with hp ht; injection hp; contradiction)
    | _, isFalse h2, _ =>
      isFalse (by intro hh; injection hh with hp ht; injection hp; contradiction)
    | _, _, isFalse h3 => isFalse (by intro hh; injection hh; contradiction)

end

instance : DecidableEq Json := Json.decEq

/-- Opening-brace character, written numerically. -/
def lbrace : Char := Char.ofNat 123

/-- Closing-brace character, written numerically. -/
def rbrace : Char := Char.ofNat 125

/-- Lookup of a key in a JSON object (Python `dict[k]` / `dict.get(k)`;
object keys are unique by construction, mirroring Python dicts). -/
def getField : Json → String → Option Json
  | .obj fs, k => (fs.find? (fun p => p.1 == k)).map (·.2)
  | _, _ => none

/-- Python `d.get(k, dflt)`. -/
def getD (j : Json) (k : String) (dflt : Json) : Json :=
  (getField j k).getD dflt

/-- Python `d.get(k)` (default `None`). -/
def pyGet (j : Json) (k : String) : Json :=
  getD j k .null

/-- Python truthiness of a JSON value. -/
def truthy : Json → Bool
  | .null => false
  | .bool b => b
  | .num m _ => !(m == 0)
  | .str s => !s.data.isEmpty
  | .arr xs => !xs.isEmpty
  | .obj fs => !fs.isEmpty

/-- Insertion into a Python dict built from parsed members: an existing key
keeps its position and gets the new value, otherwise the pair is appended. -/
def dictInsert (fs : List (String × Json)) (k : String) (v : Json) :
    List (String × Json) :=
  if fs.any (fun p => p.1 == k) then
    fs.map (fun p => if p.1 == k then (k, v) else p)
  else
    fs ++ [(k, v)]

/-- JSON whitespace characters (as accepted by Python `json.loads`). -/
def isJsonWs (c : Char) : Bool :=
  c == ' ' || c == '\t' || c == '\n' || c == '\r'

def skipWs (cs : List Char) : List Char :=
  cs.dropWhile isJsonWs

/-- Body of a JSON string after the opening quote: returns the decoded
characters and the remainder after the closing quote. -/
def decStrAux : List Char → Option (List Char × List Char)
  | [] => none
  | '"' :: rest => some ([], rest)
  | '\\' :: e :: rest =>
    (match e with
     | '"' => some '"'
     | '\\' => some '\\'
     | '/' => some '/'
     | 'n' => some '\n'
     | 't' => some '\t'
     | 'r' => some '\r'
     | 'b' => some (Char.ofNat 8)
     | 'f' => some (Char.ofNat 12)
     | _ => none).bind
      (fun c => (decStrAux rest).map
        (fun (p : List Char × List Char) => (c :: p.1, p.2)))
  | '\\' :: [] => none
  | c :: rest =>
    (decStrAux rest).map (fun (p : List Char × List Char) => (c :: p.1, p.2))

def digitsToNat (ds : List Char) : Nat :=
  ds.foldl (fun a c => 10 * a + (c.toNat - 48)) 0

/-- Canonicalize a decimal mantissa/scale pair by stripping trailing zeros
of the fractional part (so `0.50` and `0.5`, or `1.0` and `1`, coincide,
matching Python numeric equality). -/
def canonStrip : Int → Nat → Int × Nat
  | m, 0 => (m, 0)
  | m, e + 1 => if m % 10 == 0 then canonStrip (m / 10) e else (m, e + 1)

/-- Decode a JSON number (optional sign, digits, optional fraction;
exponents are not used anywhere in this development). -/
def decNum (cs : List Char) : Option (Json × List Char) :=
  let (neg, cs1) :=
    match cs with
    | '-' :: r => (true, r)
    | _ => (false, cs)
  let (ds, cs2) := cs1.span Char.isDigit
  if ds.isEmpty then none
  else
    match cs2 with
    | '.' :: cs3 =>
      let (fs, cs4) := cs3.span Char.isDigit
      if fs.isEmpty then none
      else
        let m : Int := Int.ofNat (digitsToNat (ds ++ fs))
        let (cm, ce) := canonStrip (if neg then -m else m) fs.length
        some (.num cm ce, cs4)
    | _ =>
      let m : Int := Int.ofNat (digitsToNat ds)
      some (.num (if neg then -m else m) 0, cs2)

mutual

/-- Fuel-driven recursive-descent JSON value decoder, modelling Python
`json.loads` on the grammar fragment exercised by this code base. -/
def decVal : Nat → List Char → Option (Json × List Char)
  | 0, _ => none
  | n + 1, cs =>
    match skipWs cs with
    | [] => none
    | c :: rest =>
      if c = lbrace then
        match skipWs rest with
        | [] => none
        | d :: rest1 =>
          if d = rbrace then some (.obj [], rest1)
          else decMembers n [] (d :: rest1)
      else if c = '[' then
        match skipWs rest with
        | [] => none
        | d :: rest1 =>
          if d = ']' then some (.arr [], rest1)
          else decItems n [] (d :: rest1)
      else if c = '"' then
        (decStrAux rest).map (fun p => (.str (String.mk p.1), p.2))
      else if c = 't' then
        match rest with
        | 'r' :: 'u' :: 'e' :: rem => some (.bool true, rem)
        | _ => none
      else if c = 'f' then
        match rest with
        | 'a' :: 'l' :: 's' :: 'e' :: rem => some (.bool false, rem)
        | _ => none
      else if c = 'n' then
        match rest with
        | 'u' :: 'l' :: 'l' :: rem => some (.null, rem)
        | _ => none
      else if c = '-' || c.isDigit then decNum (c :: rest)
      else none

/-- Members of a JSON object, positioned at the first character of a key. -/
def decMembers : Nat → List (String × Json) → List Char →
    Option (Json × List Char)
  | 0, _, _ => none
  | n + 1, acc, cs =>
    match cs with
    | '"' :: rest =>
      match decStrAux rest with
      | none => none
      | some (kchs, rem) =>
        match skipWs rem with
        | ':' :: rem2 =>
          match decVal n rem2 with
          | none => none
          | some (v, rem3) =>
            let acc1 := dictInsert acc (String.mk kchs) v
            match skipWs rem3 with
            | ',' :: rem5 => decMembers n acc1 (skipWs rem5)
            | d :: rem5 =>
              if d = rbrace then some (.obj acc1, rem5) else none
            | [] => none
        | _ => none
    | _ => none

/-- Items of a JSON array, positioned at the first character of an item. -/
def decItems : Nat → List Json → List Char → Option (Json × List Char)
  | 0, _, _ => none
  | n + 1, acc, cs =>
    match decVal n cs with
    | none => none
    | some (v, rem) =>
      match skipWs rem with
      | ',' :: rem2 => decItems n (acc ++ [v]) rem2
      | ']' :: rem2 => some (.arr (acc ++ [v]), rem2)
      | _ => none

end

/-- Python `json.loads` on a whole string: decode one value and require
only whitespace to remain. -/
def jsonDecodeFull (cs : List Char) : Option Json :=
  match decVal (cs.length + 2) cs with
  | some (j, rest) => if (skipWs rest).isEmpty then some j else none
  | none => none

/-- The span matched by `re.search(r'\x7b.*\x7d', response, re.DOTALL)`:
greedy match from the first opening brace to the last closing brace that
follows it (`None` if no such pair exists). -/
def extractSpan (s : List Char) : Option (List Char) :=
  let t := s.dropWhile (fun c => c != lbrace)
  let r := t.reverse.dropWhile (fun c => c != rbrace)
  if r.isEmpty then none else some r.reverse

/-- `IntelligentAgent.create_fallback_plan` from `src/Core/agent.py`
(the `user_input` argument does not appear in the returned dict). -/
def create_fallback_plan (user_input : String) : Json :=
  .obj
    [("intent", .str "Respond to user request"),
     ("complexity", .str "simple"),
     ("primary_capability", .str "text"),
     ("additional_capabilities", .arr []),
     ("tools_needed", .arr []),
     ("execution_steps",
      .arr
        [.obj
          [("step", .num 1 0),
           ("action", .str "Generate helpful response"),
           ("capability", .str "text"),
           ("depends_on", .arr [])]]),
     ("memory_operations",
      .obj [("retrieve", .arr []), ("store", .str "User interaction")]),
     ("admin_access_needed", .bool false),
     ("estimated_time", .str "quick"),
     ("confidence", .num 5 1)]

/-- The fallback plan as `parse_execution_plan` produces it
(`create_fallback_plan("")`). -/
def fallbackPlan : Json := create_fallback_plan ""

/-- Composition of the regex extraction with JSON decoding: the structured
payload (if any) that `parse_execution_plan` obtains from the raw text. -/
def decodeOf (response : String) : Option Json :=
  (extractSpan response.data).bind jsonDecodeFull

/-- `IntelligentAgent.parse_execution_plan` from `src/Core/agent.py`:
regex-extract the brace span, `json.loads` it, and on any failure return
the fallback plan. -/
def parse_execution_plan (response : String) : Json :=
  match decodeOf response with
  | some j => j
  | none => fallbackPlan

/-- One peeling round of Kahn's algorithm over `(id, deps)` pairs: keep
only the entries still blocked by a remaining id; acyclic iff the list
empties before the fuel runs out. -/
def peelRounds : Nat → List (Json × List Json) → Bool
  | _, [] => true
  | 0, _ => false
  | n + 1, l =>
    let ids := l.map (·.1)
    let rest := l.filter (fun pr => pr.2.any (fun d => ids.contains d))
    if rest.length == l.length then false else peelRounds n rest

/-- Dependency pairs `(declared id, declared dependency list)` of a plan's
`execution_steps`. -/
def depPairs (p : Json) : List (Json × List Json) :=
  match getD p "execution_steps" (.arr []) with
  | .arr steps =>
    steps.map (fun st =>
      (getD st "step" (.num 0 0),
       match getD st "depends_on" (.arr []) with
       | .arr ds => ds
       | _ => []))
  | _ => []

/-- The validity property the spec claims of every returned plan: each
`depends_on` entry names a declared step id and the dependency graph is
acyclic. -/
def planDepsValid (p : Json) : Bool :=
  let prs := depPairs p
  let ids := prs.map (·.1)
  prs.all (fun pr => pr.2.all (fun d => ids.contains d)) &&
    peelRounds prs.length prs

/-- Balanced-brace scan: accumulate characters until the depth opened by
the initial brace returns to zero. -/
def scanBalanced : List Char → Nat → List Char → Option (List Char)
  | [], _, _ => none
  | c :: rest, depth, acc =>
    if c = rbrace then
      if depth = 1 then some (acc ++ [c])
      else scanBalanced rest (depth - 1) (acc ++ [c])
    else if c = lbrace then scanBalanced rest (depth + 1) (acc ++ [c])
    else scanBalanced rest depth (acc ++ [c])

/-- Modelled from the spec (§4.2): "locate the first balanced
brace-delimited structured payload in `rawText`".  Used only to compare
the spec's description of extraction against the code's regex span. -/
def specFirstBalancedPayload (s : List Char) : Option (List Char) :=
  match s.dropWhile (fun c => c != lbrace) with
  | [] => none
  | c :: rest => scanBalanced rest 1 [c]

/-! ## Keyword classifier (`DynamicModelLoader.fallback_parse`) -/

/-- Python `str.lower()` (character-wise, as `String.toLower` does). -/
def pyLower (s : String) : String :=
  String.mk (s.data.map Char.toLower)

/-- Python character slicing `s[:n]`. -/
def pyTake (s : String) (n : Nat) : String :=
  String.mk (s.data.take n)

/-- Python's substring test `needle in hay` on character lists. -/
def isSubstring (needle : List Char) : List Char → Bool
  | [] => needle.isEmpty
  | h :: t => needle.isPrefixOf (h :: t) || isSubstring needle t

/-- The capability → keyword table of `fallback_parse` in
`src/Core/model_loader.py`, in source order. -/
def capabilitiesTable : List (String × List String) :=
  [("vision", ["image", "photo", "picture", "visual", "see", "look"]),
   ("speech_input", ["speech", "voice", "audio", "listen", "hear"]),
   ("speech_output", ["speak", "say", "voice", "tts", "text to speech"]),
   ("video", ["video", "movie", "clip", "recording"]),
   ("document", ["pdf", "document", "file", "text", "extract"]),
   ("audio_generation", ["music", "sound", "audio", "generate", "create"]),
   ("embedding", ["search", "similar", "find", "memory"])]

/-- The `detected` list computed inside `fallback_parse`: capabilities, in
table order, one of whose keywords occurs as a substring of the lowercased
response. -/
def detectedCaps (response : String) : List String :=
  let lower := pyLower response
  (capabilitiesTable.filter
    (fun p => p.2.any (fun kw => isSubstring kw.data lower.data))).map (·.1)

/-- `DynamicModelLoader.fallback_parse` from `src/Core/model_loader.py`. -/
def fallback_parse (response : String) : Json :=
  let detected := detectedCaps response
  .obj
    [("primary_capability", .str (detected.headD "text")),
     ("additional_capabilities",
      .arr ((if detected.length > 1 then detected.tail else []).map Json.str)),
     ("reasoning", .str "Keyword-based detection"),
     ("confidence", if detected.isEmpty then .num 3 1 else .num 7 1)]

/-- Modelled from the spec's claimed keyword table (C6): the reduced table
vision↔(image, photo, picture, visual) and so on, used only to compare the
claim against `fallback_parse`. -/
def specClaimTable : List (String × List String) :=
  [("vision", ["image", "photo", "picture", "visual"]),
   ("speech_input", ["speech", "voice", "listen"]),
   ("speech_output", ["speak", "tts"]),
   ("video", ["video", "clip"]),
   ("document", ["pdf", "document", "extract"]),
   ("audio_generation", ["music", "sound", "generate"]),
   ("embedding", ["search", "similar", "memory"])]

/-- The detection the claim's table would produce. -/
def specClaimDetected (response : String) : List String :=
  let lower := pyLower response
  (specClaimTable.filter
    (fun p => p.2.any (fun kw => isSubstring kw.data lower.data))).map (·.1)

/-! ## Model retention (`DynamicModelLoader.unload_unused_models`) -/

/-- `DynamicModelLoader.unload_unused_models` from
`src/Core/model_loader.py`, as a function on the set of loaded model names
(Python dict keys in insertion order): `keep_models or ["deepseek-r1"]`
replaces a `None` or empty argument by the default, then every name not in
the keep list is deleted.  Returns the names still loaded. -/
def unload_unused_models (loaded : List String)
    (keep_models : Option (List String)) : List String :=
  let keep :=
    match keep_models with
    | none => ["deepseek-r1"]
    | some l => if l.isEmpty then ["deepseek-r1"] else l
  loaded.filter (fun m => keep.contains m)

/-! ## Step execution engine (`IntelligentAgent`) -/

/-- External collaborators of the execution engine, at the boundaries the
spec declares external (§6): the main-brain state held by the model loader
(Planning Oracle), the Provider Factory outcome for `load_model`, and the
Tool Provider outcome of `use_tool` (which in the source wraps every
exception and always returns a string). -/
structure AgentEnv where
  loaderAvailable : Bool
  mainBrain : Json
  loadModel : Json → Bool
  toolOut : Json → String → Json → String

/-- Decimal rendering of a canonical mantissa/scale number (used only
inside oracle prompts). -/
def decimalStr (m : Int) (e : Nat) : String :=
  if e = 0 then toString m
  else
    let sign := if m < 0 then "-" else ""
    let ds := (toString m.natAbs).data
    let ds :=
      if ds.length ≤ e then List.replicate (e + 1 - ds.length) '0' ++ ds
      else ds
    sign ++ String.mk (ds.take (ds.length - e)) ++ "." ++
      String.mk (ds.drop (ds.length - e))

def escapeJsonChar (c : Char) : List Char :=
  if c = '\\' then ['\\', '\\']
  else if c = '"' then ['\\', '"']
  else if c = '\n' then ['\\', 'n']
  else if c = '\t' then ['\\', 't']
  else if c = '\r' then ['\\', 'r']
  else [c]

def escapeJsonStr (s : String) : String :=
  String.mk (s.data.foldr (fun c acc => escapeJsonChar c ++ acc) [])

mutual

/-- Python `json.dumps` as used to embed values into oracle prompts
(whitespace layout of the serialization is abstracted; the result only
ever flows into the opaque oracle boundary). -/
def jsonDumps : Json → String
  | .null => "null"
  | .bool b => if b then "true" else "false"
  | .num m e => decimalStr m e
  | .str s => "\"" ++ escapeJsonStr s ++ "\""
  | .arr xs => "[" ++ String.intercalate ", " (dumpsItems xs) ++ "]"
  | .obj fs =>
    "\x7b" ++ String.intercalate ", " (dumpsMembers fs) ++ "\x7d"

def dumpsItems : List Json → List String
  | [] => []
  | x :: xs => jsonDumps x :: dumpsItems xs

def dumpsMembers : List (String × Json) → List String
  | [] => []
  | (k, v) :: fs =>
    ("\"" ++ escapeJsonStr k ++ "\": " ++ jsonDumps v) :: dumpsMembers fs

end

/-- Python `str()` of a value interpolated into an f-string (container
rendering abstracted by `jsonDumps`; only used inside oracle prompts). -/
def pyStr : Json → String
  | .str s => s
  | .bool b => if b then "True" else "False"
  | .null => "None"
  | .num m e => decimalStr m e
  | j => jsonDumps j

/-- `IntelligentAgent.get_main_brain_response` from `src/Core/agent.py`
(the simplified canned responses of the source). -/
def get_main_brain_response (env : AgentEnv) (prompt : String) : String :=
  if env.loaderAvailable then
    if truthy env.mainBrain && (pyGet env.mainBrain "type" == Json.str "text")
    then "Analyzing request: " ++ pyTake prompt 50 ++ "... -> AI processing complete"
    else "I understand you want: " ++ pyTake prompt 100 ++ "..."
  else
    "Processing your request: " ++ pyTake prompt 50 ++ "..."

/-- `IntelligentAgent.process_vision`: the handler only checks whether the
model was supplied; its body cannot raise. -/
def process_vision (input_data : String) (modelPresent : Bool) : String :=
  if !modelPresent then "Vision capability not available"
  else "Vision processing completed"

/-- `IntelligentAgent.process_speech_input`. -/
def process_speech_input (input_data : String) (modelPresent : Bool) : String :=
  if !modelPresent then "Speech input capability not available"
  else "Speech processing completed"

/-- `IntelligentAgent.process_speech_output`. -/
def process_speech_output (text : String) (modelPresent : Bool) : String :=
  if !modelPresent then "Speech output capability not available"
  else "Speech generation completed"

/-- `IntelligentAgent.process_embedding`. -/
def process_embedding (input_data : String) (modelPresent : Bool) : String :=
  if !modelPresent then "Embedding capability not available"
  else "Embedding processing completed"

/-- `IntelligentAgent.use_tool`: every code path inside it is wrapped in
`try/except` and returns a string, so it is exactly the Tool Provider
boundary value. -/
def use_tool (env : AgentEnv) (tool : Json) (input_data : String)
    (context : Json) : String :=
  env.toolOut tool input_data context

/-- `IntelligentAgent.process_with_main_brain`. -/
def process_with_main_brain (env : AgentEnv) (action : Json)
    (user_input : String) (context : Json) : String :=
  get_main_brain_response env
    ("Action: " ++ pyStr action ++ "\nUser Input: " ++ user_input ++
     "\nContext: " ++ jsonDumps context ++ "\n\nProvide a helpful response:")

/-- Is the value a Python dict (an object with a `.get` method)? -/
def isObjJson : Json → Bool
  | .obj _ => true
  | _ => false

/-- The `result` string computed by the capability dispatch inside
`execute_step` (the `if tool / elif capability == ...` chain). -/
def stepResultText (env : AgentEnv) (models : List Json) (step : Json)
    (user_input : String) (plan : Json) : String :=
  let action := getD step "action" (.str "")
  let capability := getD step "capability" (.str "text")
  let tool := pyGet step "tool"
  if truthy tool then use_tool env tool user_input plan
  else if capability == Json.str "vision" then
    process_vision user_input (models.contains (Json.str "vision"))
  else if capability == Json.str "speech_input" then
    process_speech_input user_input (models.contains (Json.str "speech_input"))
  else if capability == Json.str "speech_output" then
    process_speech_output user_input (models.contains (Json.str "speech_output"))
  else if capability == Json.str "embedding" then
    process_embedding user_input (models.contains (Json.str "embedding"))
  else process_with_main_brain env action user_input plan

/-- The dict built and returned by `IntelligentAgent.execute_step` when the
step is a dict (in that case no statement of its body can raise: every
handler and `use_tool` catch internally, so `success` is always `True`). -/
def stepOkResult (env : AgentEnv) (models : List Json) (step : Json)
    (user_input : String) (plan : Json) : Json :=
  .obj
    [("step_number", getD step "step" (.num 0 0)),
     ("action", getD step "action" (.str "")),
     ("capability", getD step "capability" (.str "text")),
     ("success", .bool true),
     ("result", .str (stepResultText env models step user_input plan)),
     ("tool_used", pyGet step "tool")]

/-- `IntelligentAgent.execute_step` from `src/Core/agent.py`.  For a
non-dict step, `step.get` raises; the `except` handler then evaluates
`step.get("step", 0)` on the same object and re-raises, so the exception
propagates to the caller — modelled as `Except.error`. -/
def execute_step (env : AgentEnv) (models : List Json) (step : Json)
    (user_input : String) (plan : Json) : Except String Json :=
  match step with
  | .obj _ => .ok (stepOkResult env models step user_input plan)
  | _ => .error "AttributeError: object has no attribute get"

/-- Python iteration over the value (`for x in v` / `list.extend(v)`):
lists yield their items, strings their characters, dicts their keys;
numbers, booleans and `None` raise `TypeError`. -/
def iterJson : Json → Except String (List Json)
  | .arr xs => .ok xs
  | .str s => .ok (s.data.map (fun c => Json.str (String.mk [c])))
  | .obj fs => .ok (fs.map (fun p => Json.str p.1))
  | _ => .error "TypeError: object is not iterable"

/-- Python dict-key collection for `required_models`: repeated keys keep
their first position. -/
def dedupKeys (l : List Json) : List Json :=
  l.foldl (fun acc c => if acc.contains c then acc else acc ++ [c]) []

/-- `IntelligentAgent.load_required_models` from `src/Core/agent.py`: the
keys of `required_models`.  Per-capability load failures are caught inside
the loop; the only uncaught exception is iterating a non-iterable
`additional_capabilities` value. -/
def load_required_models (env : AgentEnv) (plan : Json) :
    Except String (List Json) :=
  if !env.loaderAvailable then .ok []
  else
    match iterJson (getD plan "additional_capabilities" (.arr [])) with
    | .error e => .error e
    | .ok additional =>
      let capabilities := pyGet plan "primary_capability" :: additional
      .ok (dedupKeys (capabilities.filter
        (fun c => truthy c && !(c == Json.str "tools") && env.loadModel c)))

/-- The iteration source of the step loop: `plan.get("execution_steps", [])`. -/
def stepsOfPlan (plan : Json) : Except String (List Json) :=
  iterJson (getD plan "execution_steps" (.arr []))

/-- The step loop of `execute_plan`: accumulates step results and
`tools_used`, stopping with the exception if `execute_step` raises. -/
def runSteps (env : AgentEnv) (models : List Json) (user_input : String)
    (plan : Json) : List Json → List Json × List Json × Option String
  | [] => ([], [], none)
  | s :: rest =>
    match execute_step env models s user_input plan with
    | .error e => ([], [], some e)
    | .ok r =>
      let (rs, ts, err) := runSteps env models user_input plan rest
      (r :: rs,
       (if truthy (pyGet r "tool_used") then pyGet r "tool_used" :: ts else ts),
       err)

/-- The `execution_results` dict of `IntelligentAgent.execute_plan`
(fixed keys, so modelled as a structure; `error` is the key added only on
the exception path). -/
structure ExecResults where
  plan_executed : Json
  steps_completed : List Json
  models_used : List Json
  tools_used : List Json
  response : String
  success : Bool
  error : Option String
deriving DecidableEq

/-- `IntelligentAgent.get_fallback_response`. -/
def get_fallback_response (user_input : String) : String :=
  "I understand your request about '" ++ pyTake user_input 50 ++
    "...' but encountered some technical difficulties. Let me try to help in a different way."

/-- `IntelligentAgent.generate_final_response`: builds the synthesis prompt
(at this point `success` is still `True`) and asks the main brain. -/
def generate_final_response (env : AgentEnv) (results : List Json)
    (user_input : String) (plan : Json) : String :=
  get_main_brain_response env
    ("\n        Generate a helpful response to the user based on these execution results:\n        \n        User Input: \"" ++
     user_input ++ "\"\n        Plan Intent: " ++
     pyStr (getD plan "intent" (.str "")) ++
     "\n        Steps Completed: " ++ toString results.length ++
     "\n        Success: True\n        \n        Step Results:\n        " ++
     jsonDumps (.arr results) ++
     "\n        \n        Provide a clear, helpful response to the user:\n        ")

/-- `IntelligentAgent.execute_plan` from `src/Core/agent.py`.  The `try`
body loads models, runs the step loop and synthesizes the response; any
exception lands in the `except` branch, which keeps whatever was
accumulated, sets `success = False` and substitutes the fallback response.
`cleanup_models` only mutates the external model loader and is invisible
in the returned record. -/
def execute_plan (env : AgentEnv) (plan : Json) (user_input : String) :
    ExecResults :=
  let base : ExecResults :=
    ⟨plan, [], [], [], "", true, none⟩
  match load_required_models env plan with
  | .error e =>
    { base with
        success := false, error := some e,
        response := get_fallback_response user_input }
  | .ok models =>
    match stepsOfPlan plan with
    | .error e =>
      { base with
          models_used := models, success := false, error := some e,
          response := get_fallback_response user_input }
    | .ok steps =>
      match runSteps env models user_input plan steps with
      | (results, tools, some e) =>
        { base with
            models_used := models, steps_completed := results,
            tools_used := tools, success := false, error := some e,
            response := get_fallback_response user_input }
      | (results, tools, none) =>
        { base with
            models_used := models, steps_completed := results,
            tools_used := tools,
            response := generate_final_response env results user_input plan,
            success := true }

/-- Whether the `try` body of `execute_plan` completes without an
exception: the capability list extends, the step list iterates, and every
step is a dict. -/
def planRunsClean (env : AgentEnv) (plan : Json) : Bool :=
  (if env.loaderAvailable then
    (match iterJson (getD plan "additional_capabilities" (.arr [])) with
     | .ok _ => true
     | .error _ => false)
   else true) &&
  (match stepsOfPlan plan with
   | .ok steps => steps.all isObjJson
   | .error _ => false)

/-- Declared id of a step dict. -/
def idOfStep (s : Json) : Json := getD s "step" (.num 0 0)

/-- Declared dependency list of a step dict. -/
def depsOfStep (s : Json) : List Json :=
  match getD s "depends_on" (.arr []) with
  | .arr ds => ds
  | _ => []

/-- The `step_number` fields of the recorded step results, in execution
order. -/
def execIdSequence (env : AgentEnv) (plan : Json) (user_input : String) :
    List Json :=
  (execute_plan env plan user_input).steps_completed.map
    (fun r => pyGet r "step_number")

/-! ## Concrete inputs used by counterexamples and witnesses -/

/-- A raw response whose brace span decodes to a plan with a dependency
cycle between steps 1 and 2. -/
def cycText : String :=
  "\x7b\"execution_steps\": [\x7b\"step\": 1, \"depends_on\": [2]\x7d, \x7b\"step\": 2, \"depends_on\": [1]\x7d]\x7d"

/-- The decoded value of `cycText`. -/
def cycJson : Json :=
  .obj
    [("execution_steps",
      .arr
        [.obj [("step", .num 1 0), ("depends_on", .arr [.num 2 0])],
         .obj [("step", .num 2 0), ("depends_on", .arr [.num 1 0])]])]

/-- A raw response holding two separate balanced payloads: the regex span
(first brace to last brace) is not valid JSON, while the first balanced
payload is. -/
def c8Text : String := "\x7b\"a\": 1\x7d x \x7b\"b\": 2\x7d"

/-- The first balanced payload inside `c8Text`. -/
def c8Span : List Char := String.data "\x7b\"a\": 1\x7d"

/-- The decoded value of `c8Span`. -/
def c8Payload : Json := .obj [("a", .num 1 0)]

/-- Environment with the model loader importable but every provider load
failing and a trivial tool boundary. -/
def envTrue : AgentEnv :=
  ⟨true, .null, fun _ => false, fun _ _ _ => ""⟩

/-- A well-formed vision step with id 1 and no dependencies. -/
def visionStep : Json :=
  .obj
    [("step", .num 1 0), ("action", .str "describe image"),
     ("capability", .str "vision"), ("depends_on", .arr [])]

/-- A vision step with id 2 that depends on step 1. -/
def visionStep2 : Json :=
  .obj
    [("step", .num 2 0), ("action", .str "compare images"),
     ("capability", .str "vision"), ("depends_on", .arr [.num 1 0])]

/-- Plan with a vision step followed by a dependent vision step. -/
def planTwoSteps : Json :=
  .obj
    [("primary_capability", .str "vision"),
     ("execution_steps", .arr [visionStep, visionStep2])]

/-- Plan whose step list names the dependent step first: list order is the
reverse of any topological order. -/
def planReversed : Json :=
  .obj [("execution_steps", .arr [visionStep2, visionStep])]

/-- Plan whose second `execution_steps` entry is a non-dict value. -/
def planBadStep : Json :=
  .obj [("execution_steps", .arr [visionStep, .str "x"])]

/-- Plan whose first entry is a non-dict value (it raises when executed)
followed by a step that declares a dependency on step 1. -/
def planAbort : Json :=
  .obj [("execution_steps", .arr [.str "boom", visionStep2])]

/-! ## The claims as stated -/

/-- C1 as stated: every returned plan satisfies the dependency validity
property (violating plans being replaced by the fallback plan). -/
def C1Statement : Prop :=
  ∀ s : String, planDepsValid (parse_execution_plan s) = true

/-- C2 as stated (instantiated at the vision capability): a step whose
provider is not loaded gets a recorded result with `success = false`. -/
def C2Statement : Prop :=
  ∀ (env : AgentEnv) (models : List Json) (step : Json) (input : String)
    (plan : Json) (r : Json),
    execute_step env models step input plan = .ok r →
    getD step "capability" (.str "text") = .str "vision" →
    truthy (pyGet step "tool") = false →
    models.contains (Json.str "vision") = false →
    getField r "success" = some (.bool false)

/-- C3 as stated: overall success iff every recorded step result has
`success = true`. -/
def C3Statement : Prop :=
  ∀ (env : AgentEnv) (plan : Json) (input : String),
    ((execute_plan env plan input).success = true ↔
      ∀ r ∈ (execute_plan env plan input).steps_completed,
        getField r "success" = some (.bool true))

/-- C4 as stated: execution visits steps so that a step's result never
precedes the result of a step it depends on. -/
def C4Statement : Prop :=
  ∀ (env : AgentEnv) (input : String) (plan : Json) (steps : List Json)
    (a b : Nat) (sa sb : Json),
    stepsOfPlan plan = .ok steps →
    steps.get? a = some sa →
    steps.get? b = some sb →
    (depsOfStep sb).contains (idOfStep sa) = true →
    (execIdSequence env plan input).indexOf (idOfStep sa) <
      (execIdSequence env plan input).indexOf (idOfStep sb)

/-- C5 as stated: after release every remaining model is in the keep set
or hard-pinned, and the pinned model survives regardless of the keep set. -/
def C5Statement : Prop :=
  ∀ (loaded keep : List String),
    (∀ m ∈ unload_unused_models loaded (some keep),
        m ∈ keep ∨ m = "deepseek-r1") ∧
    ("deepseek-r1" ∈ loaded →
      "deepseek-r1" ∈ unload_unused_models loaded (some keep))

/-- C6 as stated: the classifier behaves according to the reduced keyword
table, returning confidence 0.7 on a match and the fallback plan's
confidence 0.5 when nothing in that table matches. -/
def C6Statement : Prop :=
  ∀ s : String,
    (specClaimDetected s ≠ [] →
      fallback_parse s =
        .obj
          [("primary_capability", .str ((specClaimDetected s).headD "text")),
           ("additional_capabilities",
            .arr ((specClaimDetected s).tail.map Json.str)),
           ("reasoning", .str "Keyword-based detection"),
           ("confidence", .num 7 1)]) ∧
    (specClaimDetected s = [] →
      getField (fallback_parse s) "confidence" = some (.num 5 1))

/-- C8 as stated: structured extraction decodes the first balanced
brace-delimited payload of the raw text. -/
def C8Statement : Prop :=
  ∀ (s : String) (sp : List Char) (j : Json),
    specFirstBalancedPayload s.data = some sp →
    jsonDecodeFull sp = some j →
    parse_execution_plan s = j

/-! ## Helper lemmas -/

theorem dropWhile_head_eq_false {α : Type} (p : α → Bool) :
    ∀ (l : List α) (y : α) (ys : List α),
      l.dropWhile p = y :: ys → p y = false := by
  intro l
  induction l with
  | nil => intro y ys h; simp [List.dropWhile] at h
  | cons a t ih =>
    intro y ys h
    rw [List.dropWhile_cons] at h
    by_cases hp : p a
    · rw [if_pos hp] at h
      exact ih y ys h
    · rw [if_neg hp] at h
      cases h
      simpa using hp

theorem reverse_getLast_head {α : Type} (l : List α) :
    l.reverse.getLast? = l.head? := by
  cases l with
  | nil => rfl
  | cons a t => simp [List.reverse_cons, List.getLast?_concat]

theorem stepOkResult_success_field (env : AgentEnv) (models : List Json)
    (s : Json) (input : String) (plan : Json) :
    getField (stepOkResult env models s input plan) "success" =
      some (.bool true) := rfl

theorem stepOkResult_result_field (env : AgentEnv) (models : List Json)
    (s : Json) (input : String) (plan : Json) :
    getField (stepOkResult env models s input plan) "result" =
      some (.str (stepResultText env models s input plan)) := rfl

theorem execute_step_of_obj (env : AgentEnv) (models : List Json)
    (input : String) (plan : Json) (s : Json) :
    isObjJson s = true →
    execute_step env models s input plan =
      .ok (stepOkResult env models s input plan) := by
  cases s <;> simp [isObjJson, execute_step]

theorem execute_step_ok_success (env : AgentEnv) (models : List Json)
    (input : String) (plan : Json) (s r : Json) :
    execute_step env models s input plan = .ok r →
    getField r "success" = some (.bool true) := by
  intro h
  cases s with
  | obj fs =>
    simp only [execute_step, Except.ok.injEq] at h
    rw [← h]
    exact stepOkResult_success_field env models (.obj fs) input plan
  | null => simp [execute_step] at h
  | bool b => simp [execute_step] at h
  | num m e => simp [execute_step] at h
  | str st => simp [execute_step] at h
  | arr xs => simp [execute_step] at h

theorem runSteps_all_success (env : AgentEnv) (models : List Json)
    (input : String) (plan : Json) :
    ∀ (steps : List Json) (r : Json),
      r ∈ (runSteps env models input plan steps).1 →
      getField r "success" = some (.bool true) := by
  intro steps
  induction steps with
  | nil => intro r h; simp [runSteps] at h
  | cons s rest ih =>
    intro r h
    rw [runSteps] at h
    cases hstep : execute_step env models s input plan with
    | error e => rw [hstep] at h; simp at h
    | ok r0 =>
      rw [hstep] at h
      rcases hrec : runSteps env models input plan rest with ⟨rs, ts, err⟩
      rw [hrec] at h
      simp at h
      rcases h with h | h
      · subst h; exact execute_step_ok_success env models input plan s _ hstep
      · exact ih r (by rw [hrec]; exact h)

theorem runSteps_err_none_iff (env : AgentEnv) (models : List Json)
    (input : String) (plan : Json) :
    ∀ steps : List Json,
      ((runSteps env models input plan steps).2.2 = none) ↔
        steps.all isObjJson = true := by
  intro steps
  induction steps with
  | nil => simp [runSteps]
  | cons s rest ih =>
    rw [runSteps]
    cases s with
    | obj fs =>
      rw [execute_step_of_obj env models input plan (.obj fs) rfl]
      rcases hrec : runSteps env models input plan rest with ⟨rs, ts, err⟩
      rw [hrec] at ih
      simpa [isObjJson] using ih
    | null => simp [execute_step, isObjJson]
    | bool b => simp [execute_step, isObjJson]
    | num m e => simp [execute_step, isObjJson]
    | str st => simp [execute_step, isObjJson]
    | arr xs => simp [execute_step, isObjJson]

theorem runSteps_map_of_allObj (env : AgentEnv) (models : List Json)
    (input : String) (plan : Json) :
    ∀ steps : List Json, steps.all isObjJson = true →
      (runSteps env models input plan steps).1 =
        steps.map (fun s => stepOkResult env models s input plan) := by
  intro steps
  induction steps with
  | nil => intro _; simp [runSteps]
  | cons s rest ih =>
    intro h
    simp at h
    rw [runSteps, execute_step_of_obj env models input plan s h.1]
    rcases hrec : runSteps env models input plan rest with ⟨rs, ts, err⟩
    have := ih (by simpa using h.2)
    rw [hrec] at this
    simpa using this

theorem execute_plan_of_load_error (env : AgentEnv) (plan : Json)
    (input : String) (e : String)
    (h : load_required_models env plan = .error e) :
    execute_plan env plan input =
      ⟨plan, [], [], [], get_fallback_response input, false, some e⟩ := by
  unfold execute_plan
  rw [h]

theorem execute_plan_of_steps_error (env : AgentEnv) (plan : Json)
    (input : String) (models : List Json) (e : String)
    (h1 : load_required_models env plan = .ok models)
    (h2 : stepsOfPlan plan = .error e) :
    execute_plan env plan input =
      ⟨plan, [], models, [], get_fallback_response input, false, some e⟩ := by
  unfold execute_plan
  rw [h1, h2]

theorem execute_plan_of_run (env : AgentEnv) (plan : Json)
    (input : String) (models steps : List Json)
    (h1 : load_required_models env plan = .ok models)
    (h2 : stepsOfPlan plan = .ok steps) :
    execute_plan env plan input =
      (match runSteps env models input plan steps with
       | (results, tools, some e) =>
         ⟨plan, results, models, tools, get_fallback_response input,
           false, some e⟩
       | (results, tools, none) =>
         ⟨plan, results, models, tools,
           generate_final_response env results input plan, true, none⟩) := by
  unfold execute_plan
  rw [h1, h2]

theorem load_error_components (env : AgentEnv) (plan : Json) (e : String) :
    load_required_models env plan = .error e →
    env.loaderAvailable = true ∧
      iterJson (getD plan "additional_capabilities" (.arr [])) = .error e := by
  unfold load_required_models
  cases hL : env.loaderAvailable with
  | false => simp
  | true =>
    cases hA : iterJson (getD plan "additional_capabilities" (.arr [])) with
    | error e2 => simp only [hA]; intro h; cases h; exact ⟨trivial, rfl⟩
    | ok a => simp

theorem load_ok_first_factor (env : AgentEnv) (plan : Json)
    (models : List Json) :
    load_required_models env plan = .ok models →
    (if env.loaderAvailable then
      (match iterJson (getD plan "additional_capabilities" (.arr [])) with
       | .ok _ => true
       | .error _ => false)
     else true) = true := by
  unfold load_required_models
  cases hL : env.loaderAvailable with
  | false => simp
  | true =>
    cases hA : iterJson (getD plan "additional_capabilities" (.arr [])) with
    | error e2 => simp [hA]
    | ok a => simp [hA]

theorem execute_plan_success_flag (env : AgentEnv) (plan : Json)
    (input : String) :
    (execute_plan env plan input).success = planRunsClean env plan := by
  cases hload : load_required_models env plan with
  | error e =>
    rw [execute_plan_of_load_error env plan input e hload]
    obtain ⟨hL, hA⟩ := load_error_components env plan e hload
    unfold planRunsClean
    rw [hL, hA]
    simp
  | ok models =>
    have hfac := load_ok_first_factor env plan models hload
    unfold planRunsClean
    rw [hfac, Bool.true_and]
    cases hS : stepsOfPlan plan with
    | error e =>
      rw [execute_plan_of_steps_error env plan input models e hload hS]
    | ok steps =>
      rw [execute_plan_of_run env plan input models steps hload hS]
      rcases hR : runSteps env models input plan steps with ⟨rs, ts, err⟩
      have hiff := runSteps_err_none_iff env models input plan steps
      rw [hR] at hiff
      cases err with
      | none => simpa using (hiff.mp rfl).symm
      | some e =>
        have hfalse : ¬ steps.all isObjJson = true := fun hall => by
          have := hiff.mpr hall; simp at this
        simp [Bool.eq_false_iff.mpr hfalse]

theorem execute_plan_all_success (env : AgentEnv) (plan : Json)
    (input : String) :
    ∀ r ∈ (execute_plan env plan input).steps_completed,
      getField r "success" = some (.bool true) := by
  intro r h
  cases hload : load_required_models env plan with
  | error e =>
    rw [execute_plan_of_load_error env plan input e hload] at h
    simp at h
  | ok models =>
    cases hS : stepsOfPlan plan with
    | error e =>
      rw [execute_plan_of_steps_error env plan input models e hload hS] at h
      simp at h
    | ok steps =>
      rw [execute_plan_of_run env plan input models steps hload hS] at h
      rcases hR : runSteps env models input plan steps with ⟨rs, ts, err⟩
      rw [hR] at h
      have hmem : r ∈ (runSteps env models input plan steps).1 := by
        rw [hR]
        cases err <;> simpa using h
      exact runSteps_all_success env models input plan steps r hmem

/-! ## Claim C1 -/

/-- C1 counterexample: `parse_execution_plan` performs no dependency
validation — on `cycText`, whose payload declares the cycle 1 → 2 → 1, it
returns the decoded plan unchanged instead of the fallback plan, so the
returned plan violates the claimed validity property. -/
theorem c1_counterexample : ¬ C1Statement := fun h =>
  absurd (h cycText) (by decide)

/-- C1 (amended): `parse_execution_plan` returns any successfully decoded
payload verbatim, with no dependency-graph validation: cyclic or dangling
`depends_on` entries are passed through, and the fallback plan is used
only when extraction or decoding fails. -/
theorem c1_no_validation (s : String) (j : Json) :
    decodeOf s = some j → parse_execution_plan s = j := by
  intro h
  unfold parse_execution_plan
  rw [h]

/-- Witness for C1 (amended): on `cycText` the decoded cyclic plan comes
back unvalidated, and it indeed fails the validity property. -/
theorem c1_no_validation_witness :
    parse_execution_plan cycText = cycJson ∧ planDepsValid cycJson = false :=
  ⟨c1_no_validation cycText cycJson (by decide), by decide⟩

/-! ## Claim C2 -/

/-- C2 counterexample: a vision step whose provider was not acquired is
recorded with `success = true` (the unavailability only appears in the
result text), not `success = false` as claimed. -/
theorem c2_counterexample : ¬ C2Statement := fun h =>
  absurd
    (h envTrue [] visionStep "" Json.null
      (stepOkResult envTrue [] visionStep "" Json.null) rfl rfl rfl rfl)
    (by decide)

/-- C2 (amended): a step whose capability provider is not acquired is
recorded with `success = true` and the text "(Capability) not available"
as its result, and execution still continues: with well-formed steps every
step gets exactly one recorded result. -/
theorem c2_unavailable_keeps_success :
    (∀ (env : AgentEnv) (models : List Json) (step : Json) (input : String)
       (plan : Json) (r : Json),
       execute_step env models step input plan = .ok r →
       truthy (pyGet step "tool") = false →
       ((getD step "capability" (.str "text") = .str "vision" →
           models.contains (Json.str "vision") = false →
           getField r "success" = some (.bool true) ∧
           getField r "result" =
             some (.str "Vision capability not available")) ∧
        (getD step "capability" (.str "text") = .str "speech_input" →
           models.contains (Json.str "speech_input") = false →
           getField r "success" = some (.bool true) ∧
           getField r "result" =
             some (.str "Speech input capability not available")) ∧
        (getD step "capability" (.str "text") = .str "speech_output" →
           models.contains (Json.str "speech_output") = false →
           getField r "success" = some (.bool true) ∧
           getField r "result" =
             some (.str "Speech output capability not available")) ∧
        (getD step "capability" (.str "text") = .str "embedding" →
           models.contains (Json.str "embedding") = false →
           getField r "success" = some (.bool true) ∧
           getField r "result" =
             some (.str "Embedding capability not available")))) ∧
    (∀ (env : AgentEnv) (plan : Json) (input : String)
       (models steps : List Json),
       load_required_models env plan = .ok models →
       stepsOfPlan plan = .ok steps →
       steps.all isObjJson = true →
       (execute_plan env plan input).steps_completed.length = steps.length) := by
  constructor
  · intro env models step input plan r hstep htool
    have hr : r = stepOkResult env models step input plan := by
      cases step <;> simp [execute_step] at hstep <;> try exact hstep.symm
    subst hr
    refine ⟨?_, ?_, ?_, ?_⟩ <;> intro hcap hmod <;>
      refine ⟨stepOkResult_success_field .., ?_⟩ <;>
        rw [stepOkResult_result_field]
    · have htext : stepResultText env models step input plan =
          "Vision capability not available" := by
        simp only [stepResultText]
        rw [htool, hcap, hmod]
        rfl
      rw [htext]
    · have htext : stepResultText env models step input plan =
          "Speech input capability not available" := by
        simp only [stepResultText]
        rw [htool, hcap, hmod]
        rfl
      rw [htext]
    · have htext : stepResultText env models step input plan =
          "Speech output capability not available" := by
        simp only [stepResultText]
        rw [htool, hcap, hmod]
        rfl
      rw [htext]
    · have htext : stepResultText env models step input plan =
          "Embedding capability not available" := by
        simp only [stepResultText]
        rw [htool, hcap, hmod]
        rfl
      rw [htext]
  · intro env plan input models steps h1 h2 h3
    rw [execute_plan_of_run env plan input models steps h1 h2]
    rcases hR : runSteps env models input plan steps with ⟨rs, ts, err⟩
    have hnone : err = none := by
      have := (runSteps_err_none_iff env models input plan steps).mpr h3
      rw [hR] at this
      exact this
    subst hnone
    have hmap := runSteps_map_of_allObj env models input plan steps h3
    rw [hR] at hmap
    simp at hmap
    simp [hmap]

/-- Witness for C2 (amended): concrete vision step with no vision provider
and the two-step plan around it. -/
theorem c2_unavailable_keeps_success_witness :
    (getField (stepOkResult envTrue [] visionStep "" Json.null) "success" =
        some (.bool true) ∧
      getField (stepOkResult envTrue [] visionStep "" Json.null) "result" =
        some (.str "Vision capability not available")) ∧
    (execute_plan envTrue planTwoSteps "").steps_completed.length =
      [visionStep, visionStep2].length :=
  ⟨(c2_unavailable_keeps_success.1 envTrue [] visionStep "" Json.null
      (stepOkResult envTrue [] visionStep "" Json.null) rfl rfl).1 rfl rfl,
   c2_unavailable_keeps_success.2 envTrue planTwoSteps "" []
      [visionStep, visionStep2] rfl rfl (by decide)⟩

/-! ## Claim C3 -/

/-- C3 counterexample: for a plan whose second step entry is a non-dict
value, every recorded step result has `success = true` and yet the overall
flag is `false`, refuting the claimed equivalence. -/
theorem c3_counterexample : ¬ C3Statement := fun h =>
  absurd ((h envTrue planBadStep "").mpr (by decide)) (by decide)

/-- C3 (amended): the overall flag records whether the `try` body of
`execute_plan` raised (malformed capability list, malformed step list, or
a non-dict step); it is independent of individual step outcomes, and every
recorded step result has `success = true`. -/
theorem c3_overall_flag (env : AgentEnv) (plan : Json) (input : String) :
    (execute_plan env plan input).success = planRunsClean env plan ∧
    ∀ r ∈ (execute_plan env plan input).steps_completed,
      getField r "success" = some (.bool true) :=
  ⟨execute_plan_success_flag env plan input,
   execute_plan_all_success env plan input⟩

/-- Witness for C3 (amended) at the plan with a malformed second step. -/
theorem c3_overall_flag_witness :
    (execute_plan envTrue planBadStep "").success =
      planRunsClean envTrue planBadStep ∧
    getField (stepOkResult envTrue [] visionStep "" planBadStep) "success" =
      some (.bool true) :=
  ⟨(c3_overall_flag envTrue planBadStep "").1,
   (c3_overall_flag envTrue planBadStep "").2
     (stepOkResult envTrue [] visionStep "" planBadStep) (by decide)⟩

/-! ## Claim C4 -/

/-- C4 counterexample: `execute_plan` visits steps in their list order and
ignores `depends_on` — in `planReversed` the step with id 2, which depends
on step 1, is executed first. -/
theorem c4_counterexample : ¬ C4Statement := fun h =>
  absurd
    (h envTrue "" planReversed [visionStep2, visionStep] 1 0 visionStep
      visionStep2 rfl rfl rfl (by decide))
    (by decide)

/-- C4 (amended): `execute_plan` visits the steps exactly in the order
they appear in `execution_steps`; `depends_on` plays no role in the
ordering (no topological sort is computed). -/
theorem c4_list_order (env : AgentEnv) (plan : Json) (input : String)
    (models steps : List Json) :
    load_required_models env plan = .ok models →
    stepsOfPlan plan = .ok steps →
    steps.all isObjJson = true →
    (execute_plan env plan input).steps_completed =
      steps.map (fun s => stepOkResult env models s input plan) := by
  intro h1 h2 h3
  rw [execute_plan_of_run env plan input models steps h1 h2]
  rcases hR : runSteps env models input plan steps with ⟨rs, ts, err⟩
  have hnone : err = none := by
    have := (runSteps_err_none_iff env models input plan steps).mpr h3
    rw [hR] at this
    exact this
  subst hnone
  have hmap := runSteps_map_of_allObj env models input plan steps h3
  rw [hR] at hmap
  simpa using hmap

/-- Witness for C4 (amended): the reversed plan is executed in its literal
list order, dependent step first. -/
theorem c4_list_order_witness :
    (execute_plan envTrue planReversed "").steps_completed =
      [visionStep2, visionStep].map
        (fun s => stepOkResult envTrue [] s "" planReversed) :=
  c4_list_order envTrue planReversed "" [] [visionStep2, visionStep]
    rfl rfl (by decide)

/-! ## Claim C5 -/

/-- C5 counterexample: a non-empty keep set that omits "deepseek-r1"
evicts it — the main-brain model is not hard-pinned. -/
theorem c5_counterexample : ¬ C5Statement := fun h =>
  absurd
    ((h ["deepseek-r1", "clip-vision"] ["clip-vision"]).2 (by decide))
    (by decide)

/-- C5 (amended): after `unload_unused_models(keepSet)` a model remains
loaded exactly when it was loaded and is named by the effective keep set —
the given set when non-empty, otherwise the default containing only
"deepseek-r1"; the main brain survives a non-empty keep set only if the
caller listed it. -/
theorem c5_keep_semantics (loaded keep : List String) (m : String) :
    m ∈ unload_unused_models loaded (some keep) ↔
      (m ∈ loaded ∧
        ((keep ≠ [] ∧ m ∈ keep) ∨ (keep = [] ∧ m = "deepseek-r1"))) := by
  unfold unload_unused_models
  cases keep with
  | nil =>
    simp [List.mem_filter]
  | cons k ks =>
    simp [List.mem_filter]

/-! ## Claim C6 -/

/-- C6 counterexample: the response "see" matches the source table's
vision keyword "see", which the claim's reduced table lacks; the claim
then demands fallback behavior with confidence 0.5, but the classifier
reports vision with confidence 0.7. -/
theorem c6_counterexample : ¬ C6Statement := fun h =>
  absurd ((h "see").2 (by decide)) (by decide)

/-- C6 (amended): `fallback_parse` scans the source's larger keyword table
(which also contains see, look, audio, hear, say, text to speech, movie,
recording, file, text, find and create); the first match becomes the
primary capability and the rest the additional ones with confidence 0.7,
and when nothing matches it returns primary capability "text" with
confidence 0.3 — not the fallback plan with confidence 0.5. -/
theorem c6_classifier (s : String) :
    (detectedCaps s = [] →
      fallback_parse s =
        .obj
          [("primary_capability", .str "text"),
           ("additional_capabilities", .arr []),
           ("reasoning", .str "Keyword-based detection"),
           ("confidence", .num 3 1)]) ∧
    (∀ (c : String) (cs : List String), detectedCaps s = c :: cs →
      fallback_parse s =
        .obj
          [("primary_capability", .str c),
           ("additional_capabilities", .arr (cs.map Json.str)),
           ("reasoning", .str "Keyword-based detection"),
           ("confidence", .num 7 1)]) := by
  constructor
  · intro h
    unfold fallback_parse
    rw [h]
    rfl
  · intro c cs h
    unfold fallback_parse
    rw [h]
    cases cs with
    | nil => rfl
    | cons c2 cs2 =>
      have hlen : 1 < (c :: c2 :: cs2).length := by
        simp [List.length_cons]
      simp [hlen]

/-- Witness for C6 (amended): "see" detects exactly the vision capability
with confidence 0.7. -/
theorem c6_classifier_witness :
    fallback_parse "see" =
      .obj
        [("primary_capability", .str "vision"),
         ("additional_capabilities", .arr []),
         ("reasoning", .str "Keyword-based detection"),
         ("confidence", .num 7 1)] :=
  (c6_classifier "see").2 "vision" [] (by decide)

/-! ## Claim C7 -/

/-- C7 confirmed: whenever no structured payload can be decoded from the
raw text (no brace span, or the span is not valid JSON),
`parse_execution_plan` returns exactly the fallback plan, whose fields are
the claimed ones: intent "Respond to user request", complexity simple,
primary capability text, a single text step with id 1 and empty
`depends_on`, and confidence 0.5. -/
theorem c7_fallback (s : String) :
    decodeOf s = none →
    parse_execution_plan s = fallbackPlan ∧
    getD fallbackPlan "intent" .null = .str "Respond to user request" ∧
    getD fallbackPlan "complexity" .null = .str "simple" ∧
    getD fallbackPlan "primary_capability" .null = .str "text" ∧
    getD fallbackPlan "execution_steps" .null =
      .arr
        [.obj
          [("step", .num 1 0),
           ("action", .str "Generate helpful response"),
           ("capability", .str "text"),
           ("depends_on", .arr [])]] ∧
    getD fallbackPlan "confidence" .null = .num 5 1 := by
  intro h
  refine ⟨?_, rfl, rfl, rfl, rfl, rfl⟩
  unfold parse_execution_plan
  rw [h]

/-- Witness for C7 at a plain-text response with no payload. -/
theorem c7_fallback_witness :
    parse_execution_plan "hello" = fallbackPlan ∧
    getD fallbackPlan "intent" .null = .str "Respond to user request" ∧
    getD fallbackPlan "complexity" .null = .str "simple" ∧
    getD fallbackPlan "primary_capability" .null = .str "text" ∧
    getD fallbackPlan "execution_steps" .null =
      .arr
        [.obj
          [("step", .num 1 0),
           ("action", .str "Generate helpful response"),
           ("capability", .str "text"),
           ("depends_on", .arr [])]] ∧
    getD fallbackPlan "confidence" .null = .num 5 1 :=
  c7_fallback "hello" (by decide)

/-! ## Claim C8 -/

/-- C8 counterexample: on a response holding two separate balanced
payloads the first balanced payload decodes fine, yet the parser decodes
the span from the first brace to the last brace, fails, and falls back. -/
theorem c8_counterexample : ¬ C8Statement := fun h =>
  absurd (h c8Text c8Span c8Payload (by decide) (by decide)) (by decide)

/-- C8 (amended): structured extraction takes the span from the first
opening brace to the last closing brace of the raw text (the greedy regex
match), not the first balanced payload, and decodes that whole span,
falling back if it is not valid JSON. -/
theorem extractSpan_decomp (l sp : List Char) :
    extractSpan l = some sp →
    ∃ a b, l = a ++ sp ++ b ∧
      (∀ c ∈ a, c ≠ lbrace) ∧ (∀ c ∈ b, c ≠ rbrace) ∧
      sp.head? = some lbrace ∧ sp.getLast? = some rbrace := by
  intro h
  unfold extractSpan at h
  simp only [] at h
  set A := l.takeWhile (fun c => c != lbrace) with hA
  set T := l.dropWhile (fun c => c != lbrace) with hT
  have E1 : A ++ T = l :=
    List.takeWhile_append_dropWhile (fun c => c != lbrace) l
  have hAmem : ∀ c ∈ A, c ≠ lbrace := by
    intro c hc
    rw [hA] at hc
    have := List.mem_takeWhile_imp hc
    simpa using this
  have hThead : ∀ (z : Char) (zs : List Char), T = z :: zs → z = lbrace := by
    intro z zs hz
    rw [hT] at hz
    have := dropWhile_head_eq_false (fun c => c != lbrace) l z zs hz
    simpa using this
  set W := T.reverse.takeWhile (fun c => c != rbrace) with hW
  set R := T.reverse.dropWhile (fun c => c != rbrace) with hR
  have E2 : W ++ R = T.reverse :=
    List.takeWhile_append_dropWhile (fun c => c != rbrace) T.reverse
  have hWmem : ∀ c ∈ W, c ≠ rbrace := by
    intro c hc
    rw [hW] at hc
    have := List.mem_takeWhile_imp hc
    simpa using this
  have hRhead : ∀ (z : Char) (zs : List Char), R = z :: zs → z = rbrace := by
    intro z zs hz
    rw [hR] at hz
    have := dropWhile_head_eq_false (fun c => c != rbrace) T.reverse z zs hz
    simpa using this
  rcases hRR : R with _ | ⟨y, ys⟩
  · rw [hRR] at h
    simp at h
  · rw [hRR] at h
    simp at h
    have hy : y = rbrace := hRhead y ys hRR
    rw [hRR] at E2
    have E3 : T = ys.reverse ++ y :: W.reverse := by
      have h2 := congrArg List.reverse E2
      simp at h2
      exact h2.symm
    refine ⟨A, W.reverse, ?_, hAmem, ?_, ?_, ?_⟩
    · rw [← E1, E3, ← h]
      simp
    · intro c hc
      rw [List.mem_reverse] at hc
      exact hWmem c hc
    · rw [← h]
      rcases hc : ys.reverse ++ [y] with _ | ⟨z, zs⟩
      · exact absurd hc (by simp)
      · have hz : z = lbrace := by
          apply hThead z (zs ++ W.reverse)
          rw [E3, ← List.singleton_append, ← List.append_assoc, hc]
          simp
        rw [hz]
        rfl
    · rw [← h]
      simp [List.getLast?_concat, hy]

/-- C8 (amended): structured extraction takes the span from the first
opening brace to the last closing brace of the raw text (the greedy regex
match), not the first balanced payload, and decodes that whole span,
falling back if it is not valid JSON. -/
theorem c8_span_semantics (s : String) (sp : List Char) :
    extractSpan s.data = some sp →
    (∃ a b, s.data = a ++ sp ++ b ∧
      (∀ c ∈ a, c ≠ lbrace) ∧ (∀ c ∈ b, c ≠ rbrace)) ∧
    sp.head? = some lbrace ∧ sp.getLast? = some rbrace ∧
    parse_execution_plan s =
      (match jsonDecodeFull sp with
       | some j => j
       | none => fallbackPlan) := by
  intro h
  obtain ⟨a, b, hab, hamem, hbmem, hhead, hlast⟩ := extractSpan_decomp s.data sp h
  refine ⟨⟨a, b, hab, hamem, hbmem⟩, hhead, hlast, ?_⟩
  unfold parse_execution_plan decodeOf
  rw [h]
  rfl

/-- Witness for C8 (amended) at the two-payload response: the greedy span
is the whole string and decoding it fails, so the fallback plan comes
back. -/
theorem c8_span_semantics_witness :
    (∃ a b, c8Text.data = a ++ c8Text.data ++ b ∧
      (∀ c ∈ a, c ≠ lbrace) ∧ (∀ c ∈ b, c ≠ rbrace)) ∧
    c8Text.data.head? = some lbrace ∧
    c8Text.data.getLast? = some rbrace ∧
    parse_execution_plan c8Text =
      (match jsonDecodeFull c8Text.data with
       | some j => j
       | none => fallbackPlan) :=
  c8_span_semantics c8Text c8Text.data (by decide)

/-! ## Claim C9 -/

/-- C9 evaluation at the failing input: the plan declares a malformed
first step (whose execution raises — the only way a step can fail) and a
second step depending on step 1, yet the record holds no step results at
all and the run is aborted, so the dependent step was never attempted. -/
theorem c9_abort_eval :
    stepsOfPlan planAbort = .ok [.str "boom", visionStep2] ∧
    depsOfStep visionStep2 = [.num 1 0] ∧
    (execute_plan envTrue planAbort "").steps_completed = [] ∧
    (execute_plan envTrue planAbort "").success = false :=
  ⟨rfl, rfl, by decide, by decide⟩

/-! ## Claim C10 -/

/-- C10 confirmed: an empty keep list is falsy in `keep_models or
["deepseek-r1"]`, so it behaves exactly like passing no keep list: the
main-brain model stays loaded and every other model is evicted. -/
theorem c10_empty_keep (loaded : List String) :
    unload_unused_models loaded (some []) =
      unload_unused_models loaded none ∧
    ("deepseek-r1" ∈ loaded →
      "deepseek-r1" ∈ unload_unused_models loaded (some [])) ∧
    (∀ m ∈ loaded, m ≠ "deepseek-r1" →
      m ∉ unload_unused_models loaded (some [])) := by
  refine ⟨rfl, ?_, ?_⟩
  · intro h
    unfold unload_unused_models
    simp [List.mem_filter, h]
  · intro m hm hne
    unfold unload_unused_models
    simp [List.mem_filter]
    intro _
    exact hne

/-- Witness for C10 at a two-model loaded set. -/
theorem c10_empty_keep_witness :
    unload_unused_models ["deepseek-r1", "clip-vision"] (some []) =
      unload_unused_models ["deepseek-r1", "clip-vision"] none ∧
    "deepseek-r1" ∈
      unload_unused_models ["deepseek-r1", "clip-vision"] (some []) ∧
    "clip-vision" ∉
      unload_unused_models ["deepseek-r1", "clip-vision"] (some []) :=
  ⟨(c10_empty_keep ["deepseek-r1", "clip-vision"]).1,
   (c10_empty_keep ["deepseek-r1", "clip-vision"]).2.1 (by decide),
   (c10_empty_keep ["deepseek-r1", "clip-vision"]).2.2 "clip-vision"
     (by decide) (by decide)⟩

end Atulya
